import Mathlib

/-!
Shallow embedding of the auction back end
(markuscandido/go-expert-desafio-concorrencia-com-golang-leilao).

Conventions of the embedding:
* Go `float64` bid amounts are modelled as `ℚ`: every claim about amounts
  is an order comparison, and comparisons of finite doubles agree with the
  exact order on the rationals they denote.
* Go strings are Lean `String`s; `len` on a Go string is byte length, so we
  use `String.utf8ByteSize` where the source calls `len`.
* Store calls are modelled by passing the store's response in explicitly:
  a `CreateBid` call receives a `BidEnv` holding exactly the values the
  repositories would hand back at each fetch, and the function body is the
  line-by-line translation of the Go control flow over those values.
* The Go enums `ProductCondition` and `AuctionStatus` are integer types in
  the source (`type ProductCondition int`), so they are embedded as `Int`
  with the same named constants.
-/

/-- Error kinds of `internal/internal_error` (BadRequest / NotFound /
Internal), as described by the spec's error taxonomy. -/
inductive ErrKind where
  | badRequest
  | notFound
  | internal
deriving DecidableEq, Repr

/-- `internal_error.InternalError`: a message plus an error kind. -/
structure InternalError where
  message : String
  kind : ErrKind
deriving DecidableEq, Repr

/-- `internal_error.NewBadRequestError`. -/
def NewBadRequestError (msg : String) : InternalError :=
  { message := msg, kind := .badRequest }

/-- `internal_error.NewNotFoundError`. -/
def NewNotFoundError (msg : String) : InternalError :=
  { message := msg, kind := .notFound }

/-- `internal_error.NewInternalServerError`. -/
def NewInternalServerError (msg : String) : InternalError :=
  { message := msg, kind := .internal }

namespace auction_entity

/-- Go `type ProductCondition int`. -/
abbrev ProductCondition := Int

/-- `auction_entity.New = 1` (iota + 1). -/
def New : ProductCondition := 1

/-- `auction_entity.Used = 2`. -/
def Used : ProductCondition := 2

/-- `auction_entity.Refurbished = 3`. -/
def Refurbished : ProductCondition := 3

/-- Go `type AuctionStatus int`. -/
abbrev AuctionStatus := Int

/-- `auction_entity.Active = 0` (iota). -/
def Active : AuctionStatus := 0

/-- `auction_entity.Completed = 1`. -/
def Completed : AuctionStatus := 1

/-- `auction_entity.Auction`; instants (`CreatedAt`, `ExpiresAt`) are epoch
seconds, as the Mongo adapter stores them. -/
structure Auction where
  Id : String
  ProductName : String
  Category : String
  Description : String
  Condition : ProductCondition
  Status : AuctionStatus
  CreatedAt : Int
  ExpiresAt : Int
deriving DecidableEq, Repr

/-- `(au *Auction) Validate()`, translated with Go operator precedence:
`&&` binds tighter than `||`, so the source condition parses as
`len(ProductName) <= 1 || len(Category) <= 2 ||
 (len(Description) <= 10 && (Condition != New && Condition != Refurbished
  && Condition != Used))`. -/
def Auction.Validate (au : Auction) : Option InternalError :=
  if au.ProductName.utf8ByteSize ≤ 1 ∨
      au.Category.utf8ByteSize ≤ 2 ∨
      (au.Description.utf8ByteSize ≤ 10 ∧
        (au.Condition ≠ New ∧ au.Condition ≠ Refurbished ∧ au.Condition ≠ Used)) then
    some (NewBadRequestError "invalid auction object")
  else
    none

/-- `auction_entity.CreateAuction`: stamps id and times (passed in here,
since `uuid.New()` and `time.Now()` are environment inputs), sets
`Status = Active`, `ExpiresAt = now + interval`, then validates. -/
def CreateAuction (productName category description : String)
    (condition : ProductCondition) (id : String) (now interval : Int) :
    Except InternalError Auction :=
  let auction : Auction :=
    { Id := id
      ProductName := productName
      Category := category
      Description := description
      Condition := condition
      Status := Active
      CreatedAt := now
      ExpiresAt := now + interval }
  match auction.Validate with
  | some e => .error e
  | none => .ok auction

end auction_entity

namespace bid_entity

/-- `bid_entity.Bid` (id and timestamp are stamped at creation). -/
structure Bid where
  Id : String
  UserId : String
  AuctionId : String
  Amount : ℚ
  Timestamp : Int
deriving DecidableEq, Repr

/-- Modelled from the spec: the file `internal/entity/bid_entity` is not
under `src/`; the spec (§4.2) says `create_bid(user_id, auction_id, amount)`
"rejects amount ≤ 0 with `\"Amount is not a valid value\"`; rejects
malformed identifiers". Identifier well-formedness is a UUID-syntax check
whose exact definition is not given, so it enters as the boolean `idOk`;
the generated id and timestamp enter as `bidId` and `ts`. -/
def CreateBid (idOk : Bool) (userId auctionId : String) (amount : ℚ)
    (bidId : String) (ts : Int) : Except InternalError Bid :=
  if amount ≤ 0 then
    .error (NewBadRequestError "Amount is not a valid value")
  else if ¬ idOk then
    .error (NewBadRequestError "Invalid bid object")
  else
    .ok { Id := bidId, UserId := userId, AuctionId := auctionId,
          Amount := amount, Timestamp := ts }

end bid_entity

namespace bid_usecase

open bid_entity

/-- `bid_usecase.BidInputDTO`. -/
structure BidInputDTO where
  UserId : String
  AuctionId : String
  Amount : ℚ
deriving DecidableEq, Repr

/-- The mutable state of a `BidUseCase` touched by `CreateBid`:
the `pendingHighestBid` map (an association list; `lookup` takes the most
recent binding, mirroring the Go map) and the intake channel's content
(bids sent, in order). -/
structure BidState where
  pendingHighestBid : List (String × Bid)
  bidChannel : List Bid
deriving DecidableEq, Repr

/-- The state `NewBidUseCase` builds: empty pending map, empty channel. -/
def initialBidState : BidState :=
  { pendingHighestBid := [], bidChannel := [] }

/-- Lookup in the association-list model of the Go map: the most recent
binding for a key wins. -/
def mapLookup (m : List (String × Bid)) (k : String) : Option Bid :=
  match m with
  | [] => none
  | (k', v) :: rest => if k = k' then some v else mapLookup rest k

/-- `(bu *BidUseCase) getPendingHighestBid(auctionId)`: map lookup,
`nil` on a missing key. -/
def getPendingHighestBid (s : BidState) (auctionId : String) : Option Bid :=
  mapLookup s.pendingHighestBid auctionId

/-- `(bu *BidUseCase) updatePendingHighestBid(bid)`:
`bu.pendingHighestBid[bid.AuctionId] = bid`. -/
def updatePendingHighestBid (s : BidState) (bid : Bid) : BidState :=
  { s with pendingHighestBid := (bid.AuctionId, bid) :: s.pendingHighestBid }

/-- `(bu *BidUseCase) clearPendingBidsCache()`: resets the map. Defined in
the source but never called by any code in the repository. -/
def clearPendingBidsCache (s : BidState) : BidState :=
  { s with pendingHighestBid := [] }

/-- `getAllowSelfOutbid()` as a function of the `ALLOW_SELF_OUTBID`
environment value: `value == "true" || value == "1" || value == "yes"`. -/
def getAllowSelfOutbid (value : String) : Bool :=
  value == "true" || value == "1" || value == "yes"

/-- The store responses one `CreateBid` call observes, plus the
environment-supplied id/timestamp for the bid entity.
`FindWinningBidByAuctionId` returns a Go pair `(*Bid, *InternalError)`;
both components are carried so that the embedding can show which one the
code consults. -/
structure BidEnv where
  idOk : Bool
  bidId : String
  ts : Int
  auctionResult : Except InternalError auction_entity.Auction
  userResult : Except InternalError Unit
  findWinningBid : Option Bid × Option InternalError
deriving Repr

/-- Lines 186–197 of `CreateBid`: the effective highest `(amount, userId)`
pair. Starting from `(0, "")`, take the persisted winning bid if present,
then the pending bid if its amount is strictly greater. -/
def effectiveHighest (currentHighestBid pendingHighestBid : Option Bid) :
    ℚ × String :=
  let base : ℚ × String :=
    match currentHighestBid with
    | some b => (b.Amount, b.UserId)
    | none => (0, "")
  match pendingHighestBid with
  | some p => if base.1 < p.Amount then (p.Amount, p.UserId) else base
  | none => base

/-- The two lines that admit a bid: `bu.updatePendingHighestBid(bidEntity)`
followed by `bu.bidChannel <- *bidEntity`. -/
def acceptBid (b : Bid) (s : BidState) : Option InternalError × BidState :=
  (none,
   { pendingHighestBid := (b.AuctionId, b) :: s.pendingHighestBid,
     bidChannel := s.bidChannel ++ [b] })

/-- `(bu *BidUseCase) CreateBid(ctx, bidInputDTO)`, line by line:
1. build and validate the bid entity;
2. fetch the auction (missing ⇒ `NotFound("Auction not found")`;
   `Completed` ⇒ `BadRequest("Auction is no longer active")`);
3. fetch the user (missing ⇒ `NotFound("User not found")`);
4. `currentHighestBid, _ := FindWinningBidByAuctionId(...)` — the error
   component is discarded, only the bid pointer is used;
5. read the pending cache, compute the effective highest;
6. if the effective amount is > 0: reject a self-outbid unless
   `getAllowSelfOutbid()`, then reject `Amount <= effectiveHighestAmount`;
7. otherwise update the pending cache and send on the channel.
Returns the error (if any) and the state after the call. -/
def CreateBid (allowSelfOutbidEnv : String) (env : BidEnv)
    (input : BidInputDTO) (s : BidState) : Option InternalError × BidState :=
  match bid_entity.CreateBid env.idOk input.UserId input.AuctionId
      input.Amount env.bidId env.ts with
  | .error e => (some e, s)
  | .ok bidEntity =>
    match env.auctionResult with
    | .error _ => (some (NewNotFoundError "Auction not found"), s)
    | .ok auction =>
      if auction.Status = auction_entity.Completed then
        (some (NewBadRequestError "Auction is no longer active"), s)
      else
        match env.userResult with
        | .error _ => (some (NewNotFoundError "User not found"), s)
        | .ok _ =>
          let currentHighestBid := env.findWinningBid.1
          let pendingHighestBid := getPendingHighestBid s input.AuctionId
          let eff := effectiveHighest currentHighestBid pendingHighestBid
          if 0 < eff.1 then
            if eff.2 = input.UserId ∧ ¬ getAllowSelfOutbid allowSelfOutbidEnv then
              (some (NewBadRequestError "You are already the highest bidder"), s)
            else if input.Amount ≤ eff.1 then
              (some (NewBadRequestError "Bid must be higher than current highest bid"), s)
            else
              acceptBid bidEntity s
          else
            acceptBid bidEntity s

/-- The admission phase of `CreateBid`: everything up to and including
the amount check — the same source lines as in `CreateBid` above, with
the pending cache read from the state `s` current at read time. In the
source this phase holds no lock except the RLock inside
`getPendingHighestBid`, which is released when that call returns, before
the commit phase takes the write lock. Returns the entity to commit, or
the rejection. -/
def CreateBidAdmission (allowSelfOutbidEnv : String) (env : BidEnv)
    (input : BidInputDTO) (s : BidState) : Except InternalError Bid :=
  match bid_entity.CreateBid env.idOk input.UserId input.AuctionId
      input.Amount env.bidId env.ts with
  | .error e => .error e
  | .ok bidEntity =>
    match env.auctionResult with
    | .error _ => .error (NewNotFoundError "Auction not found")
    | .ok auction =>
      if auction.Status = auction_entity.Completed then
        .error (NewBadRequestError "Auction is no longer active")
      else
        match env.userResult with
        | .error _ => .error (NewNotFoundError "User not found")
        | .ok _ =>
          let currentHighestBid := env.findWinningBid.1
          let pendingHighestBid := getPendingHighestBid s input.AuctionId
          let eff := effectiveHighest currentHighestBid pendingHighestBid
          if 0 < eff.1 then
            if eff.2 = input.UserId ∧ ¬ getAllowSelfOutbid allowSelfOutbidEnv then
              .error (NewBadRequestError "You are already the highest bidder")
            else if input.Amount ≤ eff.1 then
              .error (NewBadRequestError "Bid must be higher than current highest bid")
            else
              .ok bidEntity
          else
            .ok bidEntity

/-- One legal interleaving of two concurrent `CreateBid` calls A and B:
both admission phases read the pending cache before either commit — the
source releases the read lock when `getPendingHighestBid` returns (line
144) and only takes the write lock inside `updatePendingHighestBid`
(line 149), so B's read may well precede A's write — and then the
commits serialize as A first, B second. Each phase is the code above;
the result is (A's returned error, B's returned error, final state). -/
def overlappedCreateBid (allowA : String) (envA : BidEnv) (inputA : BidInputDTO)
    (allowB : String) (envB : BidEnv) (inputB : BidInputDTO) (s : BidState) :
    Option InternalError × Option InternalError × BidState :=
  match CreateBidAdmission allowA envA inputA s,
      CreateBidAdmission allowB envB inputB s with
  | .error eA, .error eB => (some eA, some eB, s)
  | .error eA, .ok bB => (some eA, none, (acceptBid bB s).2)
  | .ok bA, .error eB => (none, some eB, (acceptBid bA s).2)
  | .ok bA, .ok bB => (none, none, (acceptBid bB (acceptBid bA s).2).2)

/-- Go `strconv.Atoi` (i.e. `ParseInt(s, 10, 0)` on a 64-bit platform):
an optional single `+`/`-` sign followed by at least one decimal digit,
no other characters; values outside `[-2^63, 2^63 - 1]` fail with a range
error (Go also returns a clamped value then, but with a non-nil error,
which is all `getMaxBatchSize` looks at). `none` is any non-nil error. -/
def goAtoi (s : String) : Option Int :=
  match s.data with
  | [] => none
  | c :: rest =>
    let (neg, digits) :=
      if c = '-' then (true, rest)
      else if c = '+' then (false, rest)
      else (false, c :: rest)
    if digits.isEmpty ∨ ¬ digits.all (fun d => '0' ≤ d ∧ d ≤ '9') then
      none
    else
      let n : Nat := digits.foldl (fun acc d => acc * 10 + (d.toNat - 48)) 0
      let v : Int := if neg then -(n : Int) else (n : Int)
      if -(2 ^ 63) ≤ v ∧ v ≤ 2 ^ 63 - 1 then some v else none

/-- `getMaxBatchSize()` as a function of the `MAX_BATCH_SIZE` environment
value: `strconv.Atoi`'s result if it parses, else the default 5. The
parsed value is returned unchanged — no lower (or upper) bound is
applied. -/
def getMaxBatchSize (value : String) : Int :=
  match goAtoi value with
  | none => 5
  | some n => n

/-- The configuration `NewBidUseCase` derives from `MAX_BATCH_SIZE`: the
same `getMaxBatchSize()` result is stored as `maxBatchSize` (the flush
threshold) and passed to `make(chan bid_entity.Bid, maxBatchSize)` (the
intake-channel capacity). -/
structure BidUseCaseSizes where
  maxBatchSize : Int
  bidChannelCapacity : Int
deriving DecidableEq, Repr

/-- The `maxBatchSize`/channel-capacity wiring of `NewBidUseCase`. -/
def newBidUseCaseSizes (maxBatchSizeEnv : String) : BidUseCaseSizes :=
  let maxBatchSize := getMaxBatchSize maxBatchSizeEnv
  { maxBatchSize := maxBatchSize, bidChannelCapacity := maxBatchSize }

/-- Outcome of one iteration of the flush worker's `select` loop
(`triggerCreateRoutine`): the batch buffer afterwards, the batches handed
to `BidRepository.CreateBid` (bulk inserts issued, in order), and whether
`timer.Reset` was called. -/
structure WorkerStep where
  bidBatch : List Bid
  writes : List (List Bid)
  timerReset : Bool
deriving DecidableEq, Repr

/-- The `case bidEntity, ok := <-bu.bidChannel` branch with `ok = true`:
append to the batch; if `len(bidBatch) >= maxBatchSize`, bulk-insert the
batch, reset it to `nil` and reset the timer (a failed insert is only
logged, so the buffer is reset either way). -/
def onBidReceived (maxBatchSize : Int) (bidBatch : List Bid) (b : Bid) :
    WorkerStep :=
  let batch := bidBatch ++ [b]
  if maxBatchSize ≤ (batch.length : Int) then
    { bidBatch := [], writes := [batch], timerReset := true }
  else
    { bidBatch := batch, writes := [], timerReset := false }

/-- The `case <-bu.timer.C` branch: bulk-insert the batch only if it is
non-empty, then set `bidBatch = nil` and reset the timer. -/
def onTimerFire (bidBatch : List Bid) : WorkerStep :=
  { bidBatch := [],
    writes := if 0 < bidBatch.length then [bidBatch] else [],
    timerReset := true }

/-- The `ok = false` branch (channel observed closed): bulk-insert any
remainder and return from the goroutine (no timer reset). -/
def onChannelClosed (bidBatch : List Bid) : WorkerStep :=
  { bidBatch := [],
    writes := if 0 < bidBatch.length then [bidBatch] else [],
    timerReset := false }

/-- One `CreateBid` invocation in a process trace: the
`ALLOW_SELF_OUTBID` value read during the call, the store responses it
observes, and the caller's input. -/
structure CallEvent where
  allowEnv : String
  env : BidEnv
  input : BidInputDTO

/-- The state transformation one `CreateBid` call performs. -/
def stepBid (s : BidState) (e : CallEvent) : BidState :=
  (CreateBid e.allowEnv e.env e.input s).2

/-- A sequence of `CreateBid` calls, run left to right, each call atomic
(its cache read and cache write in one step). `CreateBid` is the only
operation in the repository that mutates `pendingHighestBid`
(`clearPendingBidsCache` has no caller, and the find use cases only
read), but this fold models only serialized executions: in the source
the admission's read lock is released before the commit's write lock, so
two calls may overlap — `overlappedCreateBid` above models such an
interleaving, which this serialization excludes. -/
def runBids (s : BidState) (es : List CallEvent) : BidState :=
  es.foldl stepBid s

/-- Invariant: every bid held by the pending cache has positive amount
(it was admitted, hence passed `bid_entity.CreateBid`'s amount check). -/
def cacheAmountsPos (s : BidState) : Prop :=
  ∀ k b, mapLookup s.pendingHighestBid k = some b → 0 < b.Amount

/-- Concrete sample values used by witnesses and counterexamples. -/
def auctionA1 : auction_entity.Auction :=
  { Id := "a1", ProductName := "prod", Category := "cat",
    Description := "a long enough description",
    Condition := auction_entity.New, Status := auction_entity.Active,
    CreatedAt := 0, ExpiresAt := 1000 }

/-- A persisted winning bid of amount 10 by user `u1` on auction `a1`. -/
def bidU1 : Bid :=
  { Id := "b0", UserId := "u1", AuctionId := "a1", Amount := 10,
    Timestamp := 0 }

/-- A bid used as channel payload in witnesses. -/
def sampleBid : Bid :=
  { Id := "bx", UserId := "ux", AuctionId := "ax", Amount := 1,
    Timestamp := 0 }

/-- A `BidEnv` where entity creation succeeds, auction `a1` is found
Active and the user exists; the winning-bid fetch result is `w`. -/
def envOkWith (w : Option Bid × Option InternalError) : BidEnv :=
  { idOk := true, bidId := "bid-new", ts := 1,
    auctionResult := .ok auctionA1, userResult := .ok (),
    findWinningBid := w }

/-- Trace event: u1 opens the bidding on a1 with amount 10 (store empty). -/
def eventBid1 : CallEvent :=
  { allowEnv := "", env := envOkWith (none, none),
    input := { UserId := "u1", AuctionId := "a1", Amount := 10 } }

/-- Trace event: u2 outbids with 15 on a1 (store still empty; the pending
cache carries the 10). -/
def eventBid2 : CallEvent :=
  { allowEnv := "", env := envOkWith (none, none),
    input := { UserId := "u2", AuctionId := "a1", Amount := 15 } }

end bid_usecase

namespace bid_pipeline

/-! Close discipline of the intake channel. The only `close(bu.bidChannel)`
in the repository is the `defer` at the top of the flush-worker goroutine
in `triggerCreateRoutine`; it runs exactly when that goroutine returns,
and the goroutine's only `return` is in the branch taken after a receive
on `bu.bidChannel` reports the channel closed. Producers (`CreateBid`)
only send. The state below tracks what matters for that discipline, and
`Step` has one constructor per event the program can perform on it. -/

/-- Close-relevant state: whether `bidChannel` has been closed, whether the
flush-worker goroutine has returned, and how many times `close` ran. -/
structure ChannelState where
  channelClosed : Bool
  workerExited : Bool
  closeCount : Nat
deriving DecidableEq, Repr

/-- State at the end of `NewBidUseCase`: channel open, worker running. -/
def initialChannelState : ChannelState :=
  { channelClosed := false, workerExited := false, closeCount := 0 }

/-- Events of the program that touch the channel's close state.
`recvBid` and `timerFire` are worker iterations that keep looping;
`sendBid` is a producer's `bu.bidChannel <- *bidEntity` (sends never
close); `recvClosed` is the `ok = false` branch: it requires the channel
to be closed already, and the goroutine then returns, running the
deferred `close` (one more execution of `close`). -/
inductive Step : ChannelState → ChannelState → Prop
  | sendBid {s : ChannelState} (hw : s.workerExited = false)
      (hc : s.channelClosed = false) : Step s s
  | recvBid {s : ChannelState} (hw : s.workerExited = false)
      (hc : s.channelClosed = false) : Step s s
  | timerFire {s : ChannelState} (hw : s.workerExited = false) : Step s s
  | recvClosed {s : ChannelState} (hw : s.workerExited = false)
      (hc : s.channelClosed = true) :
      Step s { channelClosed := true, workerExited := true,
               closeCount := s.closeCount + 1 }

/-- States the process can reach from `NewBidUseCase` onwards. -/
inductive Reachable : ChannelState → Prop
  | init : Reachable initialChannelState
  | step {s s' : ChannelState} : Reachable s → Step s s' → Reachable s'

end bid_pipeline

namespace auction_repository

open auction_entity

/-- `AuctionEntityMongo`: the document stored in the `auctions`
collection (times in epoch seconds). -/
structure AuctionEntityMongo where
  Id : String
  ProductName : String
  Category : String
  Description : String
  Condition : ProductCondition
  Status : AuctionStatus
  CreatedAt : Int
  ExpiresAt : Int
deriving DecidableEq, Repr

/-- The filter document `closeExpiredAuctions` builds:
`{status: Active, expires_at: {$lte: now}}`. -/
def closeFilterMatches (now : Int) (d : AuctionEntityMongo) : Prop :=
  d.Status = Active ∧ d.ExpiresAt ≤ now

instance (now : Int) (d : AuctionEntityMongo) :
    Decidable (closeFilterMatches now d) := by
  unfold closeFilterMatches
  infer_instance

/-- The update document: `{$set: {status: Completed}}` applied to one
matching document — only the status field changes. -/
def closeUpdateApply (d : AuctionEntityMongo) : AuctionEntityMongo :=
  { d with Status := Completed }

/-- `Collection.UpdateMany(ctx, filter, update)` over a store modelled as
the list of documents: every document matching the filter gets the update,
every other document is untouched. -/
def updateManyClose (now : Int) (store : List AuctionEntityMongo) :
    List AuctionEntityMongo :=
  store.map fun d => if closeFilterMatches now d then closeUpdateApply d else d

/-- `(ar *AuctionRepository) closeExpiredAuctions(ctx)` at instant `now`
(epoch seconds): issues the single `UpdateMany` above. `updateFails`
models a store I/O failure of that call: the error is logged and the
function returns with the store unchanged — no error escapes. -/
def closeExpiredAuctions (now : Int) (updateFails : Bool)
    (store : List AuctionEntityMongo) : List AuctionEntityMongo :=
  if updateFails then store else updateManyClose now store

/-- The ticker loop of `StartAuctionCloserRoutine`: each tick `(now, fail)`
runs `closeExpiredAuctions` and the loop continues to the next tick
whatever that call did. -/
def closerRun (store : List AuctionEntityMongo)
    (ticks : List (Int × Bool)) : List AuctionEntityMongo :=
  ticks.foldl (fun s t => closeExpiredAuctions t.1 t.2 s) store

/-- Sample stored auction: Active and past its deadline at `now = 100`. -/
def docExpired : AuctionEntityMongo :=
  { Id := "x1", ProductName := "p1", Category := "c1", Description := "d1",
    Condition := 1, Status := auction_entity.Active,
    CreatedAt := 0, ExpiresAt := 50 }

/-- Sample stored auction: Active but not yet expired at `now = 100`. -/
def docLive : AuctionEntityMongo :=
  { Id := "x2", ProductName := "p2", Category := "c2", Description := "d2",
    Condition := 2, Status := auction_entity.Active,
    CreatedAt := 0, ExpiresAt := 500 }

end auction_repository

/-! Lemmas about the embedding, shared by the claim theorems below. -/

namespace bid_usecase

open bid_entity

/-- A successfully created bid entity carries the caller's ids and amount,
and the amount is positive (the entity validation rejected `amount ≤ 0`). -/
lemma createBidEntity_ok {idOk : Bool} {uid aid : String} {amount : ℚ}
    {bidId : String} {ts : Int} {b : Bid}
    (h : bid_entity.CreateBid idOk uid aid amount bidId ts = Except.ok b) :
    b.UserId = uid ∧ b.AuctionId = aid ∧ b.Amount = amount ∧ 0 < amount := by
  unfold bid_entity.CreateBid at h
  by_cases h1 : amount ≤ 0
  · simp [h1] at h
  · by_cases h2 : idOk
    · simp [h1, h2] at h
      exact ⟨by rw [← h], by rw [← h], by rw [← h], lt_of_not_le h1⟩
    · simp [h1, h2] at h

/-- The effective highest amount dominates the pending bid's amount
whenever a pending bid is present. -/
lemma le_effectiveHighest_pending (cur : Option Bid) (p : Bid) :
    p.Amount ≤ (effectiveHighest cur (some p)).1 := by
  unfold effectiveHighest
  cases cur with
  | none =>
    dsimp
    split
    · exact le_refl _
    · next hlt => exact le_of_not_lt hlt
  | some c =>
    dsimp
    split
    · exact le_refl _
    · next hlt => exact le_of_not_lt hlt

/-- Master case split on `CreateBid`: either the call errors and returns
the state unchanged, or it succeeds, the returned state is the input
state with the new entity consed onto the pending map and appended to the
channel, and — when the pending cache already held a positive-amount bid
for this auction — the admitted amount strictly exceeds it. -/
lemma createBid_cases (allow : String) (env : BidEnv) (input : BidInputDTO)
    (s : BidState) :
    ((CreateBid allow env input s).1.isSome ∧ (CreateBid allow env input s).2 = s) ∨
    (∃ b, bid_entity.CreateBid env.idOk input.UserId input.AuctionId
        input.Amount env.bidId env.ts = Except.ok b ∧
      (CreateBid allow env input s).1 = none ∧
      (CreateBid allow env input s).2 =
        { pendingHighestBid := (b.AuctionId, b) :: s.pendingHighestBid,
          bidChannel := s.bidChannel ++ [b] } ∧
      (∀ p, getPendingHighestBid s input.AuctionId = some p →
        0 < p.Amount → p.Amount < input.Amount)) := by
  cases hE : bid_entity.CreateBid env.idOk input.UserId input.AuctionId
      input.Amount env.bidId env.ts with
  | error e => left; constructor <;> simp [CreateBid, hE]
  | ok b =>
    cases hA : env.auctionResult with
    | error e => left; constructor <;> simp [CreateBid, hE, hA]
    | ok auction =>
      by_cases hC : auction.Status = auction_entity.Completed
      · left; constructor <;> simp [CreateBid, hE, hA, hC]
      · cases hU : env.userResult with
        | error e => left; constructor <;> simp [CreateBid, hE, hA, hC, hU]
        | ok u =>
          by_cases h0 : 0 < (effectiveHighest env.findWinningBid.1
              (getPendingHighestBid s input.AuctionId)).1
          · by_cases hSelf : (effectiveHighest env.findWinningBid.1
                (getPendingHighestBid s input.AuctionId)).2 = input.UserId ∧
                getAllowSelfOutbid allow = false
            · left; constructor <;> simp [CreateBid, hE, hA, hC, hU, h0, hSelf]
            · by_cases hAmt : input.Amount ≤ (effectiveHighest env.findWinningBid.1
                  (getPendingHighestBid s input.AuctionId)).1
              · left; constructor <;>
                  simp [CreateBid, hE, hA, hC, hU, h0, hSelf, hAmt]
              · right
                refine ⟨b, rfl, ?_, ?_, ?_⟩
                · simp [CreateBid, hE, hA, hC, hU, h0, hSelf, hAmt, acceptBid]
                · simp [CreateBid, hE, hA, hC, hU, h0, hSelf, hAmt, acceptBid]
                · intro p hp hppos
                  have hle := le_effectiveHighest_pending env.findWinningBid.1 p
                  rw [← hp] at hle
                  push_neg at hAmt
                  linarith
          · right
            refine ⟨b, rfl, ?_, ?_, ?_⟩
            · simp [CreateBid, hE, hA, hC, hU, h0, acceptBid]
            · simp [CreateBid, hE, hA, hC, hU, h0, acceptBid]
            · intro p hp hppos
              have hle := le_effectiveHighest_pending env.findWinningBid.1 p
              rw [← hp] at hle
              push_neg at h0
              linarith

/-- One `CreateBid` call preserves positivity of all cached amounts. -/
lemma stepBid_cacheAmountsPos (s : BidState) (e : CallEvent)
    (hpos : cacheAmountsPos s) : cacheAmountsPos (stepBid s e) := by
  unfold stepBid
  rcases createBid_cases e.allowEnv e.env e.input s with ⟨-, h2⟩ | ⟨b, hE, -, h2, -⟩
  · rw [h2]; exact hpos
  · rw [h2]
    intro k b' hb'
    dsimp at hb'
    by_cases hk : k = b.AuctionId
    · rw [mapLookup, if_pos hk] at hb'
      obtain ⟨-, -, hamt, hposamt⟩ := createBidEntity_ok hE
      injection hb' with hbb
      rw [← hbb, hamt]
      exact hposamt
    · rw [mapLookup, if_neg hk] at hb'
      exact hpos k b' hb'

/-- One `CreateBid` call never lowers the cached amount of any key: the
entry is either untouched or replaced by a strictly larger admitted bid. -/
lemma stepBid_mono (s : BidState) (e : CallEvent) (hpos : cacheAmountsPos s)
    (k : String) (b : Bid) (hb : mapLookup s.pendingHighestBid k = some b) :
    ∃ b', mapLookup (stepBid s e).pendingHighestBid k = some b' ∧
      b.Amount ≤ b'.Amount := by
  unfold stepBid
  rcases createBid_cases e.allowEnv e.env e.input s with ⟨-, h2⟩ | ⟨b2, hE, -, h2, hgt⟩
  · rw [h2]; exact ⟨b, hb, le_refl _⟩
  · rw [h2]
    dsimp
    obtain ⟨-, haid, hamt, -⟩ := createBidEntity_ok hE
    by_cases hk : k = b2.AuctionId
    · refine ⟨b2, ?_, ?_⟩
      · rw [mapLookup, if_pos hk]
      · have hpb : getPendingHighestBid s e.input.AuctionId = some b := by
          unfold getPendingHighestBid
          rw [← haid, ← hk]
          exact hb
        have := hgt b hpb (hpos k b hb)
        rw [hamt]
        linarith
    · refine ⟨b, ?_, le_refl _⟩
      rw [mapLookup, if_neg hk]
      exact hb

/-- Positivity of cached amounts holds along any trace. -/
lemma runBids_cacheAmountsPos (es : List CallEvent) (s : BidState)
    (hpos : cacheAmountsPos s) : cacheAmountsPos (runBids s es) := by
  induction es generalizing s with
  | nil => exact hpos
  | cons e es ih => exact ih (stepBid s e) (stepBid_cacheAmountsPos s e hpos)

/-- The phase split is the same code: running the admission phase and,
on success, the commit phase against the same state is exactly
`CreateBid`. So `overlappedCreateBid` differs from two sequential
`CreateBid` calls only in which state each admission phase reads. -/
lemma createBid_eq_admission_commit (allow : String) (env : BidEnv)
    (input : BidInputDTO) (s : BidState) :
    CreateBid allow env input s =
      match CreateBidAdmission allow env input s with
      | .error e => (some e, s)
      | .ok b => acceptBid b s := by
  cases hE : bid_entity.CreateBid env.idOk input.UserId input.AuctionId
      input.Amount env.bidId env.ts with
  | error e => simp [CreateBid, CreateBidAdmission, hE]
  | ok b =>
    cases hA : env.auctionResult with
    | error e => simp [CreateBid, CreateBidAdmission, hE, hA]
    | ok auction =>
      by_cases hC : auction.Status = auction_entity.Completed
      · simp [CreateBid, CreateBidAdmission, hE, hA, hC]
      · cases hU : env.userResult with
        | error e => simp [CreateBid, CreateBidAdmission, hE, hA, hC, hU]
        | ok u =>
          by_cases h0 : 0 < (effectiveHighest env.findWinningBid.1
              (getPendingHighestBid s input.AuctionId)).1
          · by_cases hSelf : (effectiveHighest env.findWinningBid.1
                (getPendingHighestBid s input.AuctionId)).2 = input.UserId ∧
                getAllowSelfOutbid allow = false
            · simp [CreateBid, CreateBidAdmission, hE, hA, hC, hU, h0, hSelf]
            · by_cases hAmt : input.Amount ≤ (effectiveHighest env.findWinningBid.1
                  (getPendingHighestBid s input.AuctionId)).1
              · simp [CreateBid, CreateBidAdmission, hE, hA, hC, hU, h0, hSelf, hAmt]
              · simp [CreateBid, CreateBidAdmission, hE, hA, hC, hU, h0, hSelf, hAmt]
          · simp [CreateBid, CreateBidAdmission, hE, hA, hC, hU, h0]

/-- Along any trace, a cached amount can only grow. -/
lemma runBids_mono (es : List CallEvent) (s : BidState)
    (hpos : cacheAmountsPos s) (k : String) (b : Bid)
    (hb : mapLookup s.pendingHighestBid k = some b) :
    ∃ b', mapLookup (runBids s es).pendingHighestBid k = some b' ∧
      b.Amount ≤ b'.Amount := by
  induction es generalizing s b with
  | nil => exact ⟨b, hb, le_refl _⟩
  | cons e es ih =>
    obtain ⟨b1, hb1, hle1⟩ := stepBid_mono s e hpos k b hb
    obtain ⟨b2, hb2, hle2⟩ :=
      ih (stepBid s e) (stepBid_cacheAmountsPos s e hpos) b1 hb1
    exact ⟨b2, hb2, le_trans hle1 hle2⟩

end bid_usecase

namespace bid_pipeline

/-- In every reachable state the channel is still open, the worker is
still running, and `close` has never executed. -/
lemma reachable_channel_state (s : ChannelState) (h : Reachable s) :
    s.channelClosed = false ∧ s.workerExited = false ∧ s.closeCount = 0 := by
  induction h with
  | init => exact ⟨rfl, rfl, rfl⟩
  | step hr hstep ih =>
    cases hstep with
    | sendBid hw hc => exact ih
    | recvBid hw hc => exact ih
    | timerFire hw => exact ih
    | recvClosed hw hc => rw [ih.1] at hc; cases hc

end bid_pipeline

/-! Claim theorems. -/

namespace bid_usecase

open bid_entity

/-- C1 counterexample: with persisted highest bid (u1, 10) on auction a1,
submitter u1 bidding 5 (so the effective highest amount is 10 ≠ 0 and the
submitted amount 5 ≤ 10), `CreateBid` with `ALLOW_SELF_OUTBID` unset
returns `BadRequest("You are already the highest bidder")`, not the
`BadRequest("Bid must be higher than current highest bid")` the claim
requires: the self-outbid check fires first. -/
theorem c1_counterexample :
    (CreateBid "" (envOkWith (some bidU1, none))
      { UserId := "u1", AuctionId := "a1", Amount := 5 } initialBidState).1 =
      some (NewBadRequestError "You are already the highest bidder") ∧
    (CreateBid "" (envOkWith (some bidU1, none))
      { UserId := "u1", AuctionId := "a1", Amount := 5 } initialBidState).1 ≠
      some (NewBadRequestError "Bid must be higher than current highest bid") := by
  decide

/-- C1 (amended): in a `CreateBid` call that passes entity validation,
finds its auction Active and its user, and whose effective highest amount
is positive, then — provided the self-outbid rejection does not fire
first, i.e. the effective highest bidder differs from the submitter or
`ALLOW_SELF_OUTBID` is truthy — a submitted amount ≤ the effective
highest amount yields `BadRequest("Bid must be higher than current
highest bid")`, and a strictly greater amount never yields that
rejection. -/
theorem bid_amount_check (allow : String) (env : BidEnv) (input : BidInputDTO)
    (s : BidState) (au : auction_entity.Auction) (b : Bid)
    (hE : bid_entity.CreateBid env.idOk input.UserId input.AuctionId
      input.Amount env.bidId env.ts = Except.ok b)
    (hA : env.auctionResult = Except.ok au)
    (hAct : au.Status ≠ auction_entity.Completed)
    (hU : env.userResult = Except.ok ())
    (hEff : 0 < (effectiveHighest env.findWinningBid.1
      (getPendingHighestBid s input.AuctionId)).1) :
    (((effectiveHighest env.findWinningBid.1
        (getPendingHighestBid s input.AuctionId)).2 ≠ input.UserId ∨
        getAllowSelfOutbid allow = true) →
      input.Amount ≤ (effectiveHighest env.findWinningBid.1
        (getPendingHighestBid s input.AuctionId)).1 →
      (CreateBid allow env input s).1 =
        some (NewBadRequestError "Bid must be higher than current highest bid")) ∧
    ((effectiveHighest env.findWinningBid.1
        (getPendingHighestBid s input.AuctionId)).1 < input.Amount →
      (CreateBid allow env input s).1 ≠
        some (NewBadRequestError "Bid must be higher than current highest bid")) := by
  constructor
  · intro hns hle
    have hnotSelf : ¬((effectiveHighest env.findWinningBid.1
        (getPendingHighestBid s input.AuctionId)).2 = input.UserId ∧
        getAllowSelfOutbid allow = false) := by
      rintro ⟨h1, h2⟩
      rcases hns with h | h
      · exact h h1
      · rw [h] at h2; cases h2
    simp [CreateBid, hE, hA, hAct, hU, hEff, hnotSelf, hle]
  · intro hgt
    by_cases hSelf : (effectiveHighest env.findWinningBid.1
        (getPendingHighestBid s input.AuctionId)).2 = input.UserId ∧
        getAllowSelfOutbid allow = false
    · have hres : (CreateBid allow env input s).1 =
          some (NewBadRequestError "You are already the highest bidder") := by
        simp [CreateBid, hE, hA, hAct, hU, hEff, hSelf]
      rw [hres]
      decide
    · have hnle : ¬ input.Amount ≤ (effectiveHighest env.findWinningBid.1
          (getPendingHighestBid s input.AuctionId)).1 := not_le.mpr hgt
      simp [CreateBid, hE, hA, hAct, hU, hEff, hSelf, hnle, acceptBid]

/-- C1 witness: submitter u2 bids 5 against persisted highest (u1, 10):
the amount rejection fires. -/
theorem c1_witness :
    (CreateBid "" (envOkWith (some bidU1, none))
      { UserId := "u2", AuctionId := "a1", Amount := 5 } initialBidState).1 =
      some (NewBadRequestError "Bid must be higher than current highest bid") := by
  have h := bid_amount_check "" (envOkWith (some bidU1, none))
    { UserId := "u2", AuctionId := "a1", Amount := 5 } initialBidState
    auctionA1
    { Id := "bid-new", UserId := "u2", AuctionId := "a1", Amount := 5, Timestamp := 1 }
    rfl rfl (by decide) rfl (by decide)
  exact h.1 (Or.inl (by decide)) (by decide)

/-- C2: whenever `CreateBid` returns an error, it has no side effect: the
pending-highest-bid cache answers exactly as before for every auction id,
and nothing was placed on the intake channel. -/
theorem createBid_error_no_side_effect (allow : String) (env : BidEnv)
    (input : BidInputDTO) (s : BidState) (e : InternalError)
    (h : (CreateBid allow env input s).1 = some e) :
    (∀ auctionId, getPendingHighestBid (CreateBid allow env input s).2 auctionId =
      getPendingHighestBid s auctionId) ∧
    (CreateBid allow env input s).2.bidChannel = s.bidChannel := by
  rcases createBid_cases allow env input s with ⟨-, h2⟩ | ⟨b, -, h1, -, -⟩
  · rw [h2]; exact ⟨fun _ => rfl, rfl⟩
  · rw [h] at h1; simp at h1

/-- C2 witness: a bid of amount 0 is rejected by entity validation and
leaves the state untouched. -/
theorem c2_witness :
    (∀ aid, getPendingHighestBid (CreateBid "" (envOkWith (none, none))
        { UserId := "u1", AuctionId := "a1", Amount := 0 } initialBidState).2 aid =
      getPendingHighestBid initialBidState aid) ∧
    (CreateBid "" (envOkWith (none, none))
        { UserId := "u1", AuctionId := "a1", Amount := 0 } initialBidState).2.bidChannel =
      initialBidState.bidChannel :=
  createBid_error_no_side_effect "" (envOkWith (none, none))
    { UserId := "u1", AuctionId := "a1", Amount := 0 } initialBidState
    (NewBadRequestError "Amount is not a valid value") (by decide)

/-- Serialized case of the pending-cache floor: if a `CreateBid` call in
a trace of non-overlapping calls accepts bid `b`, then after any further
serialized calls the cache still maps `b`'s auction id to a bid of
amount ≥ `b.Amount`. This holds only under serialization — overlapping
admissions break it, see the C3 theorem `pending_cache_race` below. -/
theorem serialized_cache_floor (pre : List CallEvent) (e : CallEvent)
    (rest : List CallEvent) (b : Bid)
    (hE : bid_entity.CreateBid e.env.idOk e.input.UserId e.input.AuctionId
      e.input.Amount e.env.bidId e.env.ts = Except.ok b)
    (hacc : (CreateBid e.allowEnv e.env e.input (runBids initialBidState pre)).1 = none) :
    ∃ b', mapLookup (runBids initialBidState (pre ++ e :: rest)).pendingHighestBid
        b.AuctionId = some b' ∧ b.Amount ≤ b'.Amount := by
  have hposPre : cacheAmountsPos (runBids initialBidState pre) :=
    runBids_cacheAmountsPos pre initialBidState
      (by intro k b' h; simp [initialBidState, mapLookup] at h)
  rcases createBid_cases e.allowEnv e.env e.input (runBids initialBidState pre) with
    ⟨h1, -⟩ | ⟨b2, hE2, -, h2, -⟩
  · rw [hacc] at h1; simp at h1
  · rw [hE] at hE2
    injection hE2 with hbb
    subst hbb
    have hsplit : runBids initialBidState (pre ++ e :: rest) =
        runBids (stepBid (runBids initialBidState pre) e) rest := by
      unfold runBids
      rw [List.foldl_append]
      rfl
    rw [hsplit]
    have hstep : mapLookup (stepBid (runBids initialBidState pre) e).pendingHighestBid
        b.AuctionId = some b := by
      unfold stepBid
      rw [h2, mapLookup, if_pos rfl]
    exact runBids_mono rest (stepBid (runBids initialBidState pre) e)
      (stepBid_cacheAmountsPos (runBids initialBidState pre) e hposPre)
      b.AuctionId b hstep

/-- Instance of the serialized floor: after serially accepting
(u1, a1, 10) and then (u2, a1, 15), the cache at a1 holds ≥ 10. -/
theorem serialized_cache_floor_example :
    ∃ b', mapLookup (runBids initialBidState
        ([] ++ eventBid1 :: [eventBid2])).pendingHighestBid "a1" = some b' ∧
      (10 : ℚ) ≤ b'.Amount := by
  have h := serialized_cache_floor [] eventBid1 [eventBid2]
    { Id := "bid-new", UserId := "u1", AuctionId := "a1", Amount := 10, Timestamp := 1 }
    rfl (by decide)
  simpa using h

/-- C3 (code evaluation at the failing interleaving): two overlapping
admissions for auction a1 on an empty cache — A = (u1, 15) reads, B =
(u2, 12) reads (both before either write, as the admission's read lock
is released before the commit's write lock), A commits, B commits. Both
calls return success, yet afterwards the pending cache maps a1 to B's
bid of amount 12 < 15: looking up accepted bid A's auction id returns an
amount below A's, violating the claimed floor. The claim is the spec's
intended invariant (§8.6, and the source comments the commit as an
"atomic operation"); the unlocked gap between read and write is the
bug. -/
theorem pending_cache_race :
    (overlappedCreateBid "" (envOkWith (none, none))
      { UserId := "u1", AuctionId := "a1", Amount := 15 }
      "" (envOkWith (none, none))
      { UserId := "u2", AuctionId := "a1", Amount := 12 }
      initialBidState).1 = none ∧
    (overlappedCreateBid "" (envOkWith (none, none))
      { UserId := "u1", AuctionId := "a1", Amount := 15 }
      "" (envOkWith (none, none))
      { UserId := "u2", AuctionId := "a1", Amount := 12 }
      initialBidState).2.1 = none ∧
    mapLookup (overlappedCreateBid "" (envOkWith (none, none))
      { UserId := "u1", AuctionId := "a1", Amount := 15 }
      "" (envOkWith (none, none))
      { UserId := "u2", AuctionId := "a1", Amount := 12 }
      initialBidState).2.2.pendingHighestBid "a1" =
      some { Id := "bid-new", UserId := "u2", AuctionId := "a1",
             Amount := 12, Timestamp := 1 } ∧
    (12 : ℚ) < 15 := by
  decide

/-- C4 counterexample: with entity, auction and user checks passing, the
persisted-highest-bid fetch fails with an Internal store error, yet
`CreateBid` returns success (`nil` error) instead of surfacing an
Internal error. -/
theorem c4_counterexample :
    (envOkWith (none, some (NewInternalServerError "database error"))).findWinningBid.2 =
      some (NewInternalServerError "database error") ∧
    (CreateBid "" (envOkWith (none, some (NewInternalServerError "database error")))
      { UserId := "u1", AuctionId := "a1", Amount := 10 } initialBidState).1 = none := by
  decide

/-- C4 (amended): `CreateBid` discards the error component returned by
`FindWinningBidByAuctionId` (`currentHighestBid, _ := ...`): its entire
outcome — error and state — is independent of that component, so a failed
fetch whose bid result is nil is treated as "no persisted highest bid"
and never surfaces as an Internal error. -/
theorem createBid_ignores_winning_bid_error (allow : String) (env : BidEnv)
    (w : Option Bid) (e1 e2 : Option InternalError) (input : BidInputDTO)
    (s : BidState) :
    CreateBid allow { env with findWinningBid := (w, e1) } input s =
    CreateBid allow { env with findWinningBid := (w, e2) } input s := rfl

/-- C6: when the effective highest amount is positive and its user id
equals the submitter's, `CreateBid` returns `BadRequest("You are already
the highest bidder")` whenever `ALLOW_SELF_OUTBID` is none of "true",
"1", "yes" — with no constraint on the submitted amount, so the rejection
applies even to a strictly higher bid — and never returns that rejection
when `ALLOW_SELF_OUTBID` is one of the truthy strings. -/
theorem self_outbid_check (allow : String) (env : BidEnv) (input : BidInputDTO)
    (s : BidState) (au : auction_entity.Auction) (b : Bid)
    (hE : bid_entity.CreateBid env.idOk input.UserId input.AuctionId
      input.Amount env.bidId env.ts = Except.ok b)
    (hA : env.auctionResult = Except.ok au)
    (hAct : au.Status ≠ auction_entity.Completed)
    (hU : env.userResult = Except.ok ())
    (hEff : 0 < (effectiveHighest env.findWinningBid.1
      (getPendingHighestBid s input.AuctionId)).1)
    (hSame : (effectiveHighest env.findWinningBid.1
      (getPendingHighestBid s input.AuctionId)).2 = input.UserId) :
    ((allow ≠ "true" ∧ allow ≠ "1" ∧ allow ≠ "yes") →
      (CreateBid allow env input s).1 =
        some (NewBadRequestError "You are already the highest bidder")) ∧
    ((allow = "true" ∨ allow = "1" ∨ allow = "yes") →
      (CreateBid allow env input s).1 ≠
        some (NewBadRequestError "You are already the highest bidder")) := by
  constructor
  · rintro ⟨h1, h2, h3⟩
    have hfalse : getAllowSelfOutbid allow = false := by
      simp only [getAllowSelfOutbid, Bool.or_eq_false_iff, beq_eq_false_iff_ne, ne_eq]
      exact ⟨⟨h1, h2⟩, h3⟩
    simp [CreateBid, hE, hA, hAct, hU, hEff, hSame, hfalse]
  · intro htruthy
    have htrue : getAllowSelfOutbid allow = true := by
      rcases htruthy with h | h | h <;> simp [getAllowSelfOutbid, h]
    have hnotSelf : ¬((effectiveHighest env.findWinningBid.1
        (getPendingHighestBid s input.AuctionId)).2 = input.UserId ∧
        getAllowSelfOutbid allow = false) := by
      rintro ⟨-, h2⟩
      rw [htrue] at h2
      cases h2
    by_cases hAmt : input.Amount ≤ (effectiveHighest env.findWinningBid.1
        (getPendingHighestBid s input.AuctionId)).1
    · have hres : (CreateBid allow env input s).1 =
          some (NewBadRequestError "Bid must be higher than current highest bid") := by
        simp [CreateBid, hE, hA, hAct, hU, hEff, hnotSelf, hAmt]
      rw [hres]
      decide
    · simp [CreateBid, hE, hA, hAct, hU, hEff, hnotSelf, hAmt, acceptBid]

/-- C6 witness: u1 already highest at 10, u1 bids 20 (strictly higher):
with `ALLOW_SELF_OUTBID` unset the self-outbid rejection still fires;
with `ALLOW_SELF_OUTBID=true` it does not. -/
theorem c6_witness :
    (CreateBid "" (envOkWith (some bidU1, none))
      { UserId := "u1", AuctionId := "a1", Amount := 20 } initialBidState).1 =
      some (NewBadRequestError "You are already the highest bidder") ∧
    (CreateBid "true" (envOkWith (some bidU1, none))
      { UserId := "u1", AuctionId := "a1", Amount := 20 } initialBidState).1 ≠
      some (NewBadRequestError "You are already the highest bidder") := by
  constructor
  · exact (self_outbid_check "" (envOkWith (some bidU1, none))
      { UserId := "u1", AuctionId := "a1", Amount := 20 } initialBidState auctionA1
      { Id := "bid-new", UserId := "u1", AuctionId := "a1", Amount := 20, Timestamp := 1 }
      rfl rfl (by decide) rfl (by decide) (by decide)).1
      ⟨by decide, by decide, by decide⟩
  · exact (self_outbid_check "true" (envOkWith (some bidU1, none))
      { UserId := "u1", AuctionId := "a1", Amount := 20 } initialBidState auctionA1
      { Id := "bid-new", UserId := "u1", AuctionId := "a1", Amount := 20, Timestamp := 1 }
      rfl rfl (by decide) rfl (by decide) (by decide)).2
      (Or.inl rfl)

/-- C8: firing the flush worker's timer with an empty batch buffer issues
no bulk insert (`BidRepository.CreateBid` is not called); the worker only
resets the buffer (to empty, as it was) and the timer. -/
theorem timer_fire_empty_batch_no_write :
    onTimerFire ([] : List Bid) =
      { bidBatch := [], writes := [], timerReset := true } := rfl

/-- C10: `getMaxBatchSize` returns whatever integer `MAX_BATCH_SIZE`
parses to under `strconv.Atoi`, with no lower bound, and returns the
default 5 exactly when parsing fails; `NewBidUseCase` uses that value
directly as both the flush threshold and the intake-channel capacity; and
with a non-positive value the size trigger fires on every received bid. -/
theorem maxBatchSize_unbounded :
    (∀ v n, goAtoi v = some n → getMaxBatchSize v = n) ∧
    (∀ v, goAtoi v = none → getMaxBatchSize v = 5) ∧
    (∀ v, (newBidUseCaseSizes v).maxBatchSize = getMaxBatchSize v ∧
      (newBidUseCaseSizes v).bidChannelCapacity = getMaxBatchSize v) ∧
    (∀ (m : Int) (batch : List Bid) (b : Bid), m ≤ 0 →
      (onBidReceived m batch b).writes = [batch ++ [b]] ∧
      (onBidReceived m batch b).bidBatch = []) := by
  refine ⟨?_, ?_, ?_, ?_⟩
  · intro v n h; unfold getMaxBatchSize; rw [h]
  · intro v h; unfold getMaxBatchSize; rw [h]
  · intro v; exact ⟨rfl, rfl⟩
  · intro m batch b hm
    have hcond : m ≤ (batch.length : Int) + 1 := by omega
    constructor <;> simp [onBidReceived, hcond]

/-- C10 witness: "-3" parses and is returned unclamped (negative), "abc"
falls back to 5, the channel capacity equals the same value, and with a
non-positive threshold a single received bid already triggers a flush. -/
theorem c10_witness :
    getMaxBatchSize "-3" = -3 ∧ getMaxBatchSize "abc" = 5 ∧
    (newBidUseCaseSizes "-3").bidChannelCapacity = getMaxBatchSize "-3" ∧
    (onBidReceived (-3) [] sampleBid).writes = [[sampleBid]] :=
  ⟨maxBatchSize_unbounded.1 "-3" (-3) (by decide),
   maxBatchSize_unbounded.2.1 "abc" (by decide),
   (maxBatchSize_unbounded.2.2.1 "-3").2,
   (maxBatchSize_unbounded.2.2.2 (-3) [] sampleBid (by decide)).1⟩

end bid_usecase

/-- C5 (code evaluation at the failing input): an auction whose
description "short" has length 5 ≤ 10 but whose condition is the valid
`New` passes `Validate` (which, by Go precedence, only rejects a short
description together with an invalid condition) and `CreateAuction`
returns it — where the spec and the repository's BUSINESS_RULES.md
require rejection with `BadRequest("invalid auction object")`. -/
theorem short_description_accepted :
    auction_entity.Auction.Validate
      { Id := "id1", ProductName := "ab", Category := "abc",
        Description := "short", Condition := auction_entity.New,
        Status := auction_entity.Active, CreatedAt := 0, ExpiresAt := 300 } = none ∧
    auction_entity.CreateAuction "ab" "abc" "short" auction_entity.New "id1" 0 300 =
      Except.ok
        { Id := "id1", ProductName := "ab", Category := "abc",
          Description := "short", Condition := auction_entity.New,
          Status := auction_entity.Active, CreatedAt := 0, ExpiresAt := 300 } :=
  ⟨by decide, rfl⟩

namespace auction_repository

/-- C7: a closer tick at instant `now` performs the single bulk update
`updateManyClose`: a stored auction is modified exactly when its status
is Active and its `expires_at` is ≤ `now`, and then only its status
changes (to Completed); a failing update leaves the store unchanged and
never propagates, and the ticker loop continues with the remaining ticks
after any tick, failed or not. -/
theorem closer_tick_shape (now : Int) (store : List AuctionEntityMongo)
    (i : Nat) (d : AuctionEntityMongo) (hd : store[i]? = some d)
    (updateFails : Bool) (ticks : List (Int × Bool)) :
    (updateManyClose now store).length = store.length ∧
    (d.Status = auction_entity.Active ∧ d.ExpiresAt ≤ now →
      (updateManyClose now store)[i]? =
        some { d with Status := auction_entity.Completed }) ∧
    (¬(d.Status = auction_entity.Active ∧ d.ExpiresAt ≤ now) →
      (updateManyClose now store)[i]? = some d) ∧
    closeExpiredAuctions now true store = store ∧
    closerRun store ((now, updateFails) :: ticks) =
      closerRun (closeExpiredAuctions now updateFails store) ticks := by
  refine ⟨by simp [updateManyClose], ?_, ?_, rfl, rfl⟩
  · intro hm
    simp [updateManyClose, List.getElem?_map, hd, closeFilterMatches,
      closeUpdateApply, hm]
  · intro hm
    simp [updateManyClose, List.getElem?_map, hd, closeFilterMatches,
      closeUpdateApply, hm]

/-- C7 witness: at `now = 100` the expired Active auction is flipped to
Completed with all other fields kept, and a failing tick leaves the store
untouched. -/
theorem c7_witness :
    (updateManyClose 100 [docExpired, docLive])[0]? =
      some { docExpired with Status := auction_entity.Completed } ∧
    closeExpiredAuctions 100 true [docExpired, docLive] = [docExpired, docLive] := by
  have h := closer_tick_shape 100 [docExpired, docLive] 0 docExpired rfl false []
  exact ⟨h.2.1 (by decide), h.2.2.2.1⟩

end auction_repository

namespace bid_pipeline

/-- C9 counterexample: no reachable state of the intake-channel close
discipline has executed `close` (even once): the claim that the channel
is closed exactly once at shutdown is false — the sole `close` is the
worker's own deferred call, which runs only after the worker has already
observed the channel closed. -/
theorem c9_counterexample : ¬ ∃ s : ChannelState, Reachable s ∧ s.closeCount = 1 := by
  rintro ⟨s, hr, h1⟩
  rw [(reachable_channel_state s hr).2.2] at h1
  cases h1

/-- C9 (amended): the bid intake channel is never closed and the flush
worker never reaches its drain-and-terminate branch: in every reachable
state `close` has executed zero times and the channel is open. -/
theorem bid_channel_never_closed (s : ChannelState) (h : Reachable s) :
    s.closeCount = 0 ∧ s.channelClosed = false ∧ s.workerExited = false :=
  ⟨(reachable_channel_state s h).2.2, (reachable_channel_state s h).1,
   (reachable_channel_state s h).2.1⟩

/-- C9 witness: the initial state (right after `NewBidUseCase`) is
reachable and satisfies the invariant. -/
theorem c9_witness :
    initialChannelState.closeCount = 0 ∧
    initialChannelState.channelClosed = false ∧
    initialChannelState.workerExited = false :=
  bid_channel_never_closed initialChannelState Reachable.init

end bid_pipeline
